import Mathlib

set_option maxRecDepth 8000

/-!
Verification development for the MRR (MaYaRa Radar Recording) playback
plugin: a shallow embedding of `src/plugin/mrr-reader.js` (binary container
decoder) and of the playback scheduler class `MrrPlayer` from
`src/plugin/index.js`, together with theorems settling the specified
properties of the decoder and scheduler.

Byte buffers are modelled as `List Nat` (one entry per byte).  Node.js
buffer semantics are modelled faithfully:
  - `buf.readUIntLE`-style fixed-width reads throw a range error when the
    requested window does not fit inside the buffer (modelled as
    `Except.error .rangeError`);
  - `buf.subarray(start, end)` CLAMPS both indices to the buffer bounds and
    never throws (modelled by `take`/`drop`, which clamp the same way).
`readU64` in the source converts a BigInt to a JS Number; we model the
value exactly as a natural number (the lossiness above 2^53 is outside
every claim considered here).
-/

/-- Node Buffer.subarray: slice with both endpoints clamped to the buffer. -/
def subarray (buf : List Nat) (s e : Nat) : List Nat :=
  (buf.take e).drop s

/-- Value of a little-endian byte list (least significant byte first). -/
def leVal : List Nat → Nat
  | [] => 0
  | b :: rest => b + 256 * leVal rest

/-- Error taxonomy: one constructor per throw site of the reader, plus the
two error kinds named by the specification (`truncatedFrame`,
`offsetOutOfRange`) so that theorems can state whether the code ever
produces them. -/
inductive MrrError where
  | bufferTooSmallHeader
  | badHeaderMagic
  | unsupportedVersion
  | bufferTooSmallFooter
  | badFooterMagic
  | rangeError
  | jsonParseError
  | truncatedFrame
  | offsetOutOfRange
deriving DecidableEq, Repr

/-- Fixed-width little-endian read; errors (like Node buffer reads) when
the window `[off, off+w)` does not fit in the buffer. -/
def readUIntLE (w : Nat) (buf : List Nat) (off : Nat) : Except MrrError Nat :=
  if off + w ≤ buf.length then .ok (leVal (subarray buf off (off + w)))
  else .error .rangeError

/-- readUInt8 from mrr-reader.js usage. -/
def readU8 (buf : List Nat) (off : Nat) : Except MrrError Nat :=
  readUIntLE 1 buf off

/-- readU16 from mrr-reader.js. -/
def readU16 (buf : List Nat) (off : Nat) : Except MrrError Nat :=
  readUIntLE 2 buf off

/-- readU32 from mrr-reader.js. -/
def readU32 (buf : List Nat) (off : Nat) : Except MrrError Nat :=
  readUIntLE 4 buf off

/-- readU64 from mrr-reader.js. -/
def readU64 (buf : List Nat) (off : Nat) : Except MrrError Nat :=
  readUIntLE 8 buf off

/-- MRR_MAGIC: the ASCII bytes of the header magic token. -/
def MRR_MAGIC : List Nat := [77, 82, 82, 49]

/-- MRR_FOOTER_MAGIC: the ASCII bytes of the footer magic token. -/
def MRR_FOOTER_MAGIC : List Nat := [77, 82, 82, 70]

def MRR_VERSION : Nat := 1
def HEADER_SIZE : Nat := 256
def FOOTER_SIZE : Nat := 32
def FRAME_FLAG_HAS_STATE : Nat := 1

/-- MrrHeader: the fixed-offset header fields of mrr-reader.js. -/
structure MrrHeader where
  version : Nat
  flags : Nat
  radarBrand : Nat
  spokesPerRev : Nat
  maxSpokeLen : Nat
  pixelValues : Nat
  startTimeMs : Nat
  capabilitiesOffset : Nat
  capabilitiesLen : Nat
  initialStateOffset : Nat
  initialStateLen : Nat
  framesOffset : Nat
deriving DecidableEq, Repr

/-- MrrHeader.fromBuffer from mrr-reader.js: size guard, magic check,
version check, then fixed-offset field reads. -/
def MrrHeader.fromBuffer (buf : List Nat) : Except MrrError MrrHeader := do
  if buf.length < HEADER_SIZE then
    Except.error .bufferTooSmallHeader
  else if subarray buf 0 4 ≠ MRR_MAGIC then
    Except.error .badHeaderMagic
  else
    let version ← readU16 buf 4
    if version > MRR_VERSION then
      Except.error .unsupportedVersion
    else
      let flags ← readU16 buf 6
      let radarBrand ← readU32 buf 8
      let spokesPerRev ← readU32 buf 12
      let maxSpokeLen ← readU32 buf 16
      let pixelValues ← readU32 buf 20
      let startTimeMs ← readU64 buf 24
      let capabilitiesOffset ← readU64 buf 32
      let capabilitiesLen ← readU32 buf 40
      let initialStateOffset ← readU64 buf 44
      let initialStateLen ← readU32 buf 52
      let framesOffset ← readU64 buf 56
      pure { version, flags, radarBrand, spokesPerRev, maxSpokeLen,
             pixelValues, startTimeMs, capabilitiesOffset, capabilitiesLen,
             initialStateOffset, initialStateLen, framesOffset }

/-- MrrFooter: the fixed-offset footer fields of mrr-reader.js. -/
structure MrrFooter where
  indexOffset : Nat
  indexCount : Nat
  frameCount : Nat
  durationMs : Nat
deriving DecidableEq, Repr

/-- MrrFooter.fromBuffer from mrr-reader.js: size guard, magic check, then
fixed-offset field reads. -/
def MrrFooter.fromBuffer (buf : List Nat) : Except MrrError MrrFooter := do
  if buf.length < FOOTER_SIZE then
    Except.error .bufferTooSmallFooter
  else if subarray buf 0 4 ≠ MRR_FOOTER_MAGIC then
    Except.error .badFooterMagic
  else
    let indexOffset ← readU64 buf 4
    let indexCount ← readU32 buf 12
    let frameCount ← readU32 buf 16
    let durationMs ← readU64 buf 20
    pure { indexOffset, indexCount, frameCount, durationMs }

/-- MrrFrame: one decoded frame record. `stateDelta = none` models the
JavaScript `null` initial value that is only replaced when the
has-state-delta flag bit is set. -/
structure MrrFrame where
  timestampMs : Nat
  flags : Nat
  data : List Nat
  stateDelta : Option (List Nat)
deriving DecidableEq, Repr

/-- MrrFrame.fromBuffer from mrr-reader.js: reads the 8-byte timestamp,
1-byte flags and 4-byte data length, slices `dataLen` bytes of payload
with `subarray` (which clamps, never errors), and, when flag bit 0 is set,
a further 4-byte state length plus a clamped state slice.  Returns the
frame together with `bytesRead`, the absolute offset just past the frame
(the source returns the advanced running offset under that name). -/
def MrrFrame.fromBuffer (buf : List Nat) (offset : Nat) :
    Except MrrError (MrrFrame × Nat) := do
  let timestampMs ← readU64 buf offset
  let flags ← readU8 buf (offset + 8)
  let dataLen ← readU32 buf (offset + 9)
  let data := subarray buf (offset + 13) (offset + 13 + dataLen)
  if Nat.land flags FRAME_FLAG_HAS_STATE ≠ 0 then
    let stateLen ← readU32 buf (offset + 13 + dataLen)
    let st := subarray buf (offset + 17 + dataLen) (offset + 17 + dataLen + stateLen)
    pure ({ timestampMs, flags, data, stateDelta := some st },
          offset + 17 + dataLen + stateLen)
  else
    pure ({ timestampMs, flags, data, stateDelta := none },
          offset + 13 + dataLen)

/-- State of an `MrrReader` after a successful `load`, as set up at the end
of `MrrReader.load` in mrr-reader.js.  The JSON documents produced by the
host JSON parser are kept abstract in the type parameter `J`: the reader
stores whatever the parser returned. -/
structure MrrReaderState (J : Type) where
  buffer : List Nat
  header : MrrHeader
  footer : MrrFooter
  capabilities : J
  initialState : J
  currentOffset : Nat
  currentFrame : Nat

/-- MrrReader.load from mrr-reader.js, over an already-decompressed byte
buffer.  The host JSON parser (`JSON.parse` composed with utf-8 text
decoding) is passed in as `parse`; the source applies it to the
capabilities slice and the initial-state slice.  Both slices are taken
with `subarray`, which clamps to the buffer bounds; the source performs no
bounds check of its own on the header-declared offset+length pairs. -/
def MrrReader.load {J : Type} (parse : List Nat → Except MrrError J)
    (buf : List Nat) : Except MrrError (MrrReaderState J) := do
  let header ← MrrHeader.fromBuffer buf
  let footerBuf := subarray buf (buf.length - FOOTER_SIZE) buf.length
  let footer ← MrrFooter.fromBuffer footerBuf
  let capBuf := subarray buf header.capabilitiesOffset
      (header.capabilitiesOffset + header.capabilitiesLen)
  let capabilities ← parse capBuf
  let stateBuf := subarray buf header.initialStateOffset
      (header.initialStateOffset + header.initialStateLen)
  let initialState ← parse stateBuf
  pure { buffer := buf, header, footer, capabilities, initialState,
         currentOffset := header.framesOffset, currentFrame := 0 }

/-- Metadata record returned by MrrReader.getMetadata. -/
structure MrrMetadata (J : Type) where
  version : Nat
  radarBrand : Nat
  spokesPerRev : Nat
  maxSpokeLen : Nat
  pixelValues : Nat
  startTimeMs : Nat
  frameCount : Nat
  durationMs : Nat
  capabilities : J
  initialState : J

/-- MrrReader.getMetadata from mrr-reader.js: header fields plus the
footer frame count and duration. -/
def MrrReader.getMetadata {J : Type} (s : MrrReaderState J) : MrrMetadata J :=
  { version := s.header.version
    radarBrand := s.header.radarBrand
    spokesPerRev := s.header.spokesPerRev
    maxSpokeLen := s.header.maxSpokeLen
    pixelValues := s.header.pixelValues
    startTimeMs := s.header.startTimeMs
    frameCount := s.footer.frameCount
    durationMs := s.footer.durationMs
    capabilities := s.capabilities
    initialState := s.initialState }

/-- MrrReader.readFrame from mrr-reader.js: returns `none` once
`currentFrame` has reached the footer frame count, otherwise decodes one
frame at `currentOffset`, stores the returned absolute offset back into
`currentOffset` and increments `currentFrame`. -/
def MrrReader.readFrame {J : Type} (s : MrrReaderState J) :
    Except MrrError (Option (MrrFrame × MrrReaderState J)) :=
  if s.currentFrame ≥ s.footer.frameCount then
    .ok none
  else do
    let (frame, bytesRead) ← MrrFrame.fromBuffer s.buffer s.currentOffset
    pure (some (frame, { s with currentOffset := bytesRead,
                                currentFrame := s.currentFrame + 1 }))

/-- MrrReader.rewind from mrr-reader.js. -/
def MrrReader.rewind {J : Type} (s : MrrReaderState J) : MrrReaderState J :=
  { s with currentOffset := s.header.framesOffset, currentFrame := 0 }

/-- Loop body of the frames() generator: repeatedly call `readFrame`,
collecting results until it returns `none`.  The loop in the source
terminates because every iteration increments `currentFrame` and the
`none` case triggers as soon as `currentFrame` reaches the footer frame
count; `fuel` bounds the iterations and
`s.footer.frameCount - s.currentFrame + 1` is always enough. -/
def MrrReader.framesAux {J : Type} : Nat → MrrReaderState J →
    Except MrrError (List MrrFrame)
  | 0, _ => .ok []
  | fuel + 1, s => do
      match ← MrrReader.readFrame s with
      | none => pure []
      | some (frame, s1) => do
          let rest ← MrrReader.framesAux fuel s1
          pure (frame :: rest)

/-- frames() generator from mrr-reader.js: rewind, then read frames until
`readFrame` returns `none`, yielding them in order. -/
def MrrReader.framesIter {J : Type} (s : MrrReaderState J) :
    Except MrrError (List MrrFrame) :=
  MrrReader.framesAux (s.footer.frameCount + 1) (MrrReader.rewind s)

/-!
Playback scheduler: shallow embedding of the `MrrPlayer` class of
`src/plugin/index.js`.  The single `setTimeout` slot `playbackTimer` is
modelled as an optional pair of the armed delay in milliseconds and the
callback that was scheduled; `clearTimeout` is modelled by emptying the
slot, and a cancelled callback can never fire because the fire event is
guarded on the slot being full.  Side effects of a transition (frame
emissions through the binary stream manager, plugin status updates) are
returned as a list of `Eff` values.
-/

/-- Callback kinds a timer can be armed with: the mid-sequence
`scheduleNextFrame` continuation, or the loop-restart continuation armed
after the last frame when looping. -/
inductive TimerAction where
  | nextFrame
  | loopRestart
deriving DecidableEq, Repr

/-- Observable side effects of one scheduler transition. -/
inductive Eff where
  | emit (data : List Nat)
  | finishedStatus
deriving DecidableEq, Repr

/-- Mutable fields of the `MrrPlayer` class (constructor, index.js). -/
structure PlayerState where
  playing : Bool
  loop : Bool
  currentFrame : Nat
  positionMs : Nat
  playbackTimer : Option (Nat × TimerAction)
  frames : List MrrFrame
  filename : String
  radarId : Option String
  durationMs : Nat
  frameCount : Nat
  spokesPerRev : Nat
  maxSpokeLen : Nat
  pixelValues : Nat
  range : Nat
deriving DecidableEq, Repr

/-- MrrPlayer constructor from index.js: field initial values before
`load` runs (`loop` defaults to `true`, nothing playing, no timer). -/
def MrrPlayer.initState (filename : String) : PlayerState :=
  { playing := false
    loop := true
    currentFrame := 0
    positionMs := 0
    playbackTimer := none
    frames := []
    filename := filename
    radarId := none
    durationMs := 0
    frameCount := 0
    spokesPerRev := 2048
    maxSpokeLen := 512
    pixelValues := 64
    range := 1852 }

/-- MrrPlayer.load from index.js, after the reader has produced metadata
`m` and the pre-loaded frame list `fr`: copies metadata into the player
(with the JS `||`-fallbacks for falsy, i.e. zero, values; `range` comes
from the optional initial-state document) and sets the radar id computed
from the file name.  `loop`, `playing`, `currentFrame`, `positionMs` and
`playbackTimer` are not touched. -/
def MrrPlayer.applyLoad {J : Type} (s : PlayerState) (m : MrrMetadata J)
    (rangeOfState : Option Nat) (fr : List MrrFrame) (radarId : String) :
    PlayerState :=
  { s with
    durationMs := m.durationMs
    frameCount := m.frameCount
    spokesPerRev := if m.spokesPerRev = 0 then 2048 else m.spokesPerRev
    maxSpokeLen := if m.maxSpokeLen = 0 then 512 else m.maxSpokeLen
    pixelValues := if m.pixelValues = 0 then 64 else m.pixelValues
    range := match rangeOfState with
             | some r => if r = 0 then 1852 else r
             | none => 1852
    frames := fr
    radarId := some radarId }

/-- Status record returned by MrrPlayer.getStatus. -/
structure PlayerStatus where
  state : String
  radarId : Option String
  filename : String
  positionMs : Nat
  durationMs : Nat
  frame : Nat
  frameCount : Nat
  loopPlayback : Bool
deriving DecidableEq, Repr

/-- MrrPlayer.getStatus from index.js: the reported state string is
computed from `playing` and `currentFrame` only, taking one of exactly
three values. -/
def MrrPlayer.getStatus (s : PlayerState) : PlayerStatus :=
  { state := if s.playing then "playing"
             else if s.currentFrame > 0 then "paused" else "loaded"
    radarId := s.radarId
    filename := s.filename
    positionMs := s.positionMs
    durationMs := s.durationMs
    frame := s.currentFrame
    frameCount := s.frameCount
    loopPlayback := s.loop }

/-- Response of GET /playback/status when no player exists
(registerWithRouter, index.js line 334). -/
def idleStatusResponse : String × Bool := ("idle", true)

/-- MrrPlayer.scheduleNextFrame from index.js.  When the end of the frame
list is reached with looping enabled the source calls itself recursively
after resetting the position; `fuel` bounds that recursion (depth 2 always
suffices when the frame list is non-empty; with an empty list and looping
the source would recurse forever, modelled as `none`).  Otherwise it
delivers the frame at `currentFrame`, records its timestamp, advances the
index, and either arms the timer with `max(1, delta)` for a next frame,
arms a 100 ms loop-restart timer after the last frame when looping, or
clears `playing` and reports a finished plugin status. -/
def MrrPlayer.scheduleNextFrameAux : Nat → PlayerState →
    Option (PlayerState × List Eff)
  | 0, _ => none
  | fuel + 1, s =>
    if !s.playing then some (s, [])
    else if s.currentFrame ≥ s.frames.length then
      if s.loop then
        MrrPlayer.scheduleNextFrameAux fuel
          { s with currentFrame := 0, positionMs := 0 }
      else
        some ({ s with playing := false }, [.finishedStatus])
    else
      match s.frames[s.currentFrame]? with
      | none => none
      | some frame =>
        let s1 := { s with positionMs := frame.timestampMs,
                           currentFrame := s.currentFrame + 1 }
        match s1.frames[s1.currentFrame]? with
        | some nextFrame =>
            let deltaMs : Int :=
              (nextFrame.timestampMs : Int) - (frame.timestampMs : Int)
            let d : Nat := (max 1 deltaMs).toNat
            some ({ s1 with playbackTimer := some (d, .nextFrame) },
                  [.emit frame.data])
        | none =>
            if s1.loop then
              some ({ s1 with playbackTimer := some (100, .loopRestart) },
                    [.emit frame.data])
            else
              some ({ s1 with playing := false },
                    [.emit frame.data, .finishedStatus])

/-- MrrPlayer.scheduleNextFrame: recursion depth 2 covers every reachable
case (the inner recursive call starts at `currentFrame = 0`). -/
def MrrPlayer.scheduleNextFrame (s : PlayerState) :
    Option (PlayerState × List Eff) :=
  MrrPlayer.scheduleNextFrameAux 2 s

/-- MrrPlayer.play from index.js: no-op when already playing, otherwise
set `playing` and run `scheduleNextFrame` synchronously. -/
def MrrPlayer.play (s : PlayerState) : Option (PlayerState × List Eff) :=
  if s.playing then some (s, [])
  else MrrPlayer.scheduleNextFrame { s with playing := true }

/-- MrrPlayer.pause from index.js: clear `playing` and cancel the pending
timer (clearTimeout plus nulling the slot). -/
def MrrPlayer.pause (s : PlayerState) : PlayerState × List Eff :=
  ({ s with playing := false, playbackTimer := none }, [])

/-- MrrPlayer.stop from index.js: `pause`, then reset `currentFrame` and
`positionMs` to zero. -/
def MrrPlayer.stop (s : PlayerState) : PlayerState × List Eff :=
  let p := MrrPlayer.pause s
  ({ p.1 with currentFrame := 0, positionMs := 0 }, p.2)

/-- External events driving the player: the control operations of the
class plus the firing of the armed timer callback.  `timerFire` is a no-op
when no timer is armed (a cancelled callback never fires); when it fires,
the slot is consumed first and the armed callback runs. -/
inductive PEvent where
  | evPlay
  | evPause
  | evStop
  | evSetLooping (b : Bool)
  | timerFire
deriving DecidableEq, Repr

/-- One event step of the player. -/
def MrrPlayer.pstep (s : PlayerState) : PEvent →
    Option (PlayerState × List Eff)
  | .evPlay => MrrPlayer.play s
  | .evPause => some (MrrPlayer.pause s)
  | .evStop => some (MrrPlayer.stop s)
  | .evSetLooping b => some ({ s with loop := b }, [])
  | .timerFire =>
    match s.playbackTimer with
    | none => some (s, [])
    | some (_, act) =>
      let s0 := { s with playbackTimer := none }
      match act with
      | .nextFrame => MrrPlayer.scheduleNextFrame s0
      | .loopRestart =>
          MrrPlayer.scheduleNextFrame
            { s0 with currentFrame := 0, positionMs := 0 }

/-- Run a list of events, concatenating their effects. -/
def MrrPlayer.runEvents (s : PlayerState) : List PEvent →
    Option (PlayerState × List Eff)
  | [] => some (s, [])
  | e :: rest =>
    (MrrPlayer.pstep s e).bind fun p =>
      (MrrPlayer.runEvents p.1 rest).map fun q => (q.1, p.2 ++ q.2)

/-!
Helper lemmas about the byte primitives and the `Except` monad plumbing.
-/

theorem ebind_ok {α β : Type} (a : α) (f : α → Except MrrError β) :
    (Except.ok a >>= f) = f a := rfl

theorem ebind_error {α β : Type} (e : MrrError) (f : α → Except MrrError β) :
    ((Except.error e : Except MrrError α) >>= f) = Except.error e := rfl

theorem subarray_length (buf : List Nat) (s e : Nat) :
    (subarray buf s e).length = min e buf.length - s := by
  simp [subarray]

theorem readUIntLE_ok (w : Nat) (buf : List Nat) (off : Nat)
    (h : off + w ≤ buf.length) :
    readUIntLE w buf off = .ok (leVal (subarray buf off (off + w))) := by
  simp [readUIntLE, h]

theorem readUIntLE_oob (w : Nat) (buf : List Nat) (off : Nat)
    (h : buf.length < off + w) :
    readUIntLE w buf off = .error .rangeError := by
  simp [readUIntLE]
  omega

/-- C3: for every buffer and offset with enough remaining bytes, one frame
record is read as an 8-byte little-endian timestamp, a 1-byte flags field,
a 4-byte little-endian data length, then exactly that many payload bytes;
a 4-byte state length plus exactly that many state-delta bytes follow if
and only if bit 0 of the flags byte is set (stateDelta is absent
otherwise); the returned cursor is the start offset advanced by exactly
the total size consumed. -/
theorem frame_fromBuffer_layout (buf : List Nat) (off : Nat) :
    (Nat.land (leVal (subarray buf (off + 8) (off + 9))) FRAME_FLAG_HAS_STATE = 0 →
     off + 13 + leVal (subarray buf (off + 9) (off + 13)) ≤ buf.length →
     MrrFrame.fromBuffer buf off =
       .ok ({ timestampMs := leVal (subarray buf off (off + 8))
              flags := leVal (subarray buf (off + 8) (off + 9))
              data := subarray buf (off + 13)
                        (off + 13 + leVal (subarray buf (off + 9) (off + 13)))
              stateDelta := none },
            off + 13 + leVal (subarray buf (off + 9) (off + 13))) ∧
     (subarray buf (off + 13)
        (off + 13 + leVal (subarray buf (off + 9) (off + 13)))).length =
       leVal (subarray buf (off + 9) (off + 13)))
    ∧
    (Nat.land (leVal (subarray buf (off + 8) (off + 9))) FRAME_FLAG_HAS_STATE ≠ 0 →
     off + 17 + leVal (subarray buf (off + 9) (off + 13)) +
       leVal (subarray buf (off + 13 + leVal (subarray buf (off + 9) (off + 13)))
                (off + 17 + leVal (subarray buf (off + 9) (off + 13)))) ≤ buf.length →
     MrrFrame.fromBuffer buf off =
       .ok ({ timestampMs := leVal (subarray buf off (off + 8))
              flags := leVal (subarray buf (off + 8) (off + 9))
              data := subarray buf (off + 13)
                        (off + 13 + leVal (subarray buf (off + 9) (off + 13)))
              stateDelta := some (subarray buf
                (off + 17 + leVal (subarray buf (off + 9) (off + 13)))
                (off + 17 + leVal (subarray buf (off + 9) (off + 13)) +
                 leVal (subarray buf (off + 13 + leVal (subarray buf (off + 9) (off + 13)))
                         (off + 17 + leVal (subarray buf (off + 9) (off + 13)))))) },
            off + 17 + leVal (subarray buf (off + 9) (off + 13)) +
              leVal (subarray buf (off + 13 + leVal (subarray buf (off + 9) (off + 13)))
                      (off + 17 + leVal (subarray buf (off + 9) (off + 13)))))) := by
  constructor
  · intro hbit hbound
    have h1 : off + 8 ≤ buf.length := by omega
    have h2 : off + 8 + 1 ≤ buf.length := by omega
    have h3 : off + 9 + 4 ≤ buf.length := by omega
    refine ⟨?_, ?_⟩
    · rw [MrrFrame.fromBuffer]
      rw [readU64, readUIntLE_ok 8 buf off h1, ebind_ok]
      rw [readU8, readUIntLE_ok 1 buf (off + 8) h2, ebind_ok]
      rw [readU32, readUIntLE_ok 4 buf (off + 9) h3]
      simp only [ebind_ok]
      have : off + 8 + 1 = off + 9 := by omega
      rw [this] at hbit ⊢
      have : off + 9 + 4 = off + 13 := by omega
      rw [this]
      simp only [hbit, ne_eq, not_true_eq_false, if_false, ite_false]
      rfl
    · rw [subarray_length]
      omega
  · intro hbit hbound
    have h1 : off + 8 ≤ buf.length := by omega
    have h2 : off + 8 + 1 ≤ buf.length := by omega
    have h3 : off + 9 + 4 ≤ buf.length := by omega
    have h4 : off + 13 + leVal (subarray buf (off + 9) (off + 13)) + 4 ≤ buf.length := by omega
    rw [MrrFrame.fromBuffer]
    rw [readU64, readUIntLE_ok 8 buf off h1, ebind_ok]
    rw [readU8, readUIntLE_ok 1 buf (off + 8) h2, ebind_ok]
    rw [readU32, readUIntLE_ok 4 buf (off + 9) h3]
    simp only [ebind_ok]
    have e1 : off + 8 + 1 = off + 9 := by omega
    rw [e1] at hbit ⊢
    have e2 : off + 9 + 4 = off + 13 := by omega
    rw [e2]
    rw [if_pos hbit]
    rw [readU32, readUIntLE_ok 4 buf _ h4]
    simp only [ebind_ok]
    have e3 : off + 13 + leVal (subarray buf (off + 9) (off + 13)) + 4 =
        off + 17 + leVal (subarray buf (off + 9) (off + 13)) := by omega
    rw [e3]
    rfl

def bufC3a : List Nat := [1,0,0,0,0,0,0,0, 0, 2,0,0,0, 9, 8]

def bufC3b : List Nat := [5,0,0,0,0,0,0,0, 1, 2,0,0,0, 10, 11, 1,0,0,0, 7]

/-- Witness for C3: both branches of the layout theorem evaluated at
concrete buffers, one without and one with a state delta. -/
theorem frame_fromBuffer_layout_witness :
    MrrFrame.fromBuffer bufC3a 0 =
      .ok ({ timestampMs := 1, flags := 0, data := [9, 8], stateDelta := none }, 15) ∧
    MrrFrame.fromBuffer bufC3b 0 =
      .ok ({ timestampMs := 5, flags := 1, data := [10, 11], stateDelta := some [7] }, 20) :=
  ⟨((frame_fromBuffer_layout bufC3a 0).1 (by decide) (by decide)).1,
   (frame_fromBuffer_layout bufC3b 0).2 (by decide) (by decide)⟩

/-- C1 (amended): when the declared 4-byte data length demands more bytes
than remain, frame decoding does NOT fail with a truncated-frame error.
With flag bit 0 clear it succeeds, returning a frame whose payload is
silently clamped to the bytes that remain (strictly shorter than
declared) and a cursor past the end of the buffer; with flag bit 0 set
the subsequent state-length read falls outside the buffer and the
decode fails with the unclassified range error of the buffer read, not
with a truncated-frame error. -/
theorem frame_truncated_silently_clamps (buf : List Nat) (off : Nat) :
    (Nat.land (leVal (subarray buf (off + 8) (off + 9))) FRAME_FLAG_HAS_STATE = 0 →
     off + 13 ≤ buf.length →
     buf.length < off + 13 + leVal (subarray buf (off + 9) (off + 13)) →
     MrrFrame.fromBuffer buf off =
       .ok ({ timestampMs := leVal (subarray buf off (off + 8))
              flags := leVal (subarray buf (off + 8) (off + 9))
              data := subarray buf (off + 13)
                        (off + 13 + leVal (subarray buf (off + 9) (off + 13)))
              stateDelta := none },
            off + 13 + leVal (subarray buf (off + 9) (off + 13))) ∧
     (subarray buf (off + 13)
        (off + 13 + leVal (subarray buf (off + 9) (off + 13)))).length =
       buf.length - (off + 13) ∧
     (subarray buf (off + 13)
        (off + 13 + leVal (subarray buf (off + 9) (off + 13)))).length <
       leVal (subarray buf (off + 9) (off + 13)))
    ∧
    (Nat.land (leVal (subarray buf (off + 8) (off + 9))) FRAME_FLAG_HAS_STATE ≠ 0 →
     off + 13 ≤ buf.length →
     buf.length < off + 13 + leVal (subarray buf (off + 9) (off + 13)) →
     MrrFrame.fromBuffer buf off = .error .rangeError) := by
  constructor
  · intro hbit hlo hhi
    have h1 : off + 8 ≤ buf.length := by omega
    have h2 : off + 8 + 1 ≤ buf.length := by omega
    have h3 : off + 9 + 4 ≤ buf.length := by omega
    refine ⟨?_, ?_, ?_⟩
    · rw [MrrFrame.fromBuffer]
      rw [readU64, readUIntLE_ok 8 buf off h1, ebind_ok]
      rw [readU8, readUIntLE_ok 1 buf (off + 8) h2, ebind_ok]
      rw [readU32, readUIntLE_ok 4 buf (off + 9) h3]
      simp only [ebind_ok]
      have e1 : off + 8 + 1 = off + 9 := by omega
      rw [e1] at hbit ⊢
      have e2 : off + 9 + 4 = off + 13 := by omega
      rw [e2]
      simp only [hbit, ne_eq, not_true_eq_false, if_false, ite_false]
      rfl
    · rw [subarray_length]; omega
    · rw [subarray_length]; omega
  · intro hbit hlo hhi
    have h1 : off + 8 ≤ buf.length := by omega
    have h2 : off + 8 + 1 ≤ buf.length := by omega
    have h3 : off + 9 + 4 ≤ buf.length := by omega
    have h4 : buf.length < off + 13 + leVal (subarray buf (off + 9) (off + 13)) + 4 := by omega
    rw [MrrFrame.fromBuffer]
    rw [readU64, readUIntLE_ok 8 buf off h1, ebind_ok]
    rw [readU8, readUIntLE_ok 1 buf (off + 8) h2, ebind_ok]
    rw [readU32, readUIntLE_ok 4 buf (off + 9) h3]
    simp only [ebind_ok]
    have e1 : off + 8 + 1 = off + 9 := by omega
    rw [e1] at hbit ⊢
    have e2 : off + 9 + 4 = off + 13 := by omega
    rw [e2]
    rw [if_pos hbit]
    rw [readU32, readUIntLE_oob 4 buf _ h4]
    rfl

def cbufC1 : List Nat := [0,0,0,0,0,0,0,0, 0, 5,0,0,0]

def cbufC1s : List Nat := [0,0,0,0,0,0,0,0, 1, 5,0,0,0]

/-- Counterexample for C1 as stated: a 13-byte buffer whose frame declares
a data length of 5 with zero bytes remaining.  Decoding does not fail at
all: it returns a frame with an empty (silently shortened) payload and a
cursor of 18, past the end of the buffer. -/
theorem frame_truncated_counterexample :
    leVal (subarray cbufC1 9 13) = 5 ∧
    cbufC1.length = 13 ∧
    MrrFrame.fromBuffer cbufC1 0 =
      .ok ({ timestampMs := 0, flags := 0, data := [], stateDelta := none }, 18) :=
  ⟨rfl, rfl, rfl⟩

/-- Witness for the amended C1: both branches evaluated at concrete
truncated buffers (flag clear: clamped success; flag set: range error). -/
theorem frame_truncated_silently_clamps_witness :
    (MrrFrame.fromBuffer cbufC1 0 =
      .ok ({ timestampMs := 0, flags := 0, data := [], stateDelta := none }, 18) ∧
     ([] : List Nat).length = cbufC1.length - 13 ∧
     ([] : List Nat).length < 5) ∧
    MrrFrame.fromBuffer cbufC1s 0 = .error .rangeError :=
  ⟨((frame_truncated_silently_clamps cbufC1 0).1 (by decide) (by decide) (by decide)),
   ((frame_truncated_silently_clamps cbufC1s 0).2 (by decide) (by decide) (by decide))⟩

/-- C9: a buffer whose first four bytes differ from the header magic never
decodes successfully; when the buffer is at least the fixed header size
the failure is specifically the bad-magic (malformed container) error;
and a buffer with correct magic but a version field above the supported
maximum fails with the unsupported-version error. -/
theorem header_magic_and_version (buf : List Nat) :
    (subarray buf 0 4 ≠ MRR_MAGIC → HEADER_SIZE ≤ buf.length →
       MrrHeader.fromBuffer buf = .error .badHeaderMagic) ∧
    (subarray buf 0 4 ≠ MRR_MAGIC →
       ∀ h : MrrHeader, MrrHeader.fromBuffer buf ≠ .ok h) ∧
    (subarray buf 0 4 = MRR_MAGIC → HEADER_SIZE ≤ buf.length →
       MRR_VERSION < leVal (subarray buf 4 6) →
       MrrHeader.fromBuffer buf = .error .unsupportedVersion) := by
  refine ⟨?_, ?_, ?_⟩
  · intro hmagic hlen
    rw [MrrHeader.fromBuffer, if_neg (by omega : ¬ buf.length < HEADER_SIZE),
        if_pos hmagic]
  · intro hmagic h
    by_cases hlen : buf.length < HEADER_SIZE
    · rw [MrrHeader.fromBuffer, if_pos hlen]
      simp
    · rw [MrrHeader.fromBuffer, if_neg hlen, if_pos hmagic]
      simp
  · intro hmagic hlen hv
    rw [MrrHeader.fromBuffer, if_neg (by omega : ¬ buf.length < HEADER_SIZE),
        if_neg (by simp [hmagic])]
    have hlen6 : (4 : Nat) + 2 ≤ buf.length := by
      have e256 : HEADER_SIZE = 256 := rfl
      omega
    rw [readU16, readUIntLE_ok 2 buf 4 hlen6]
    rw [ebind_ok]
    have e : (4 : Nat) + 2 = 6 := by omega
    rw [e]
    rw [if_pos hv]

def cbufC9magic : List Nat := List.replicate 256 0

def cbufC9ver : List Nat := [77, 82, 82, 49, 2, 0] ++ List.replicate 250 0

/-- Witness for C9: a 256-byte all-zero buffer (magic absent) fails with
the bad-magic error and never parses; a correct-magic buffer declaring
version 2 fails with the unsupported-version error. -/
theorem header_magic_and_version_witness :
    MrrHeader.fromBuffer cbufC9magic = .error .badHeaderMagic ∧
    (∀ h : MrrHeader, MrrHeader.fromBuffer cbufC9magic ≠ .ok h) ∧
    MrrHeader.fromBuffer cbufC9ver = .error .unsupportedVersion :=
  ⟨(header_magic_and_version cbufC9magic).1 (by decide) (by decide),
   (header_magic_and_version cbufC9magic).2.1 (by decide),
   (header_magic_and_version cbufC9ver).2.2 (by decide) (by decide) (by decide)⟩

theorem readUIntLE_ne_oor (w : Nat) (buf : List Nat) (off : Nat) :
    readUIntLE w buf off ≠ .error .offsetOutOfRange := by
  unfold readUIntLE
  split <;> simp

theorem except_bind_ne {α β : Type} (x : Except MrrError α)
    (f : α → Except MrrError β) (e : MrrError)
    (hx : x ≠ .error e) (hf : ∀ a, f a ≠ .error e) :
    (x >>= f) ≠ .error e := by
  cases x with
  | error e2 =>
      intro hc
      rw [ebind_error] at hc
      injection hc with h2
      subst h2
      exact hx rfl
  | ok a =>
      rw [ebind_ok]
      exact hf a

theorem header_fromBuffer_ne_oor (buf : List Nat) :
    MrrHeader.fromBuffer buf ≠ .error .offsetOutOfRange := by
  rw [MrrHeader.fromBuffer]
  split
  · simp
  · split
    · simp
    · refine except_bind_ne _ _ _ (readUIntLE_ne_oor _ _ _) fun version => ?_
      split
      · simp
      · refine except_bind_ne _ _ _ (readUIntLE_ne_oor _ _ _) fun _ => ?_
        refine except_bind_ne _ _ _ (readUIntLE_ne_oor _ _ _) fun _ => ?_
        refine except_bind_ne _ _ _ (readUIntLE_ne_oor _ _ _) fun _ => ?_
        refine except_bind_ne _ _ _ (readUIntLE_ne_oor _ _ _) fun _ => ?_
        refine except_bind_ne _ _ _ (readUIntLE_ne_oor _ _ _) fun _ => ?_
        refine except_bind_ne _ _ _ (readUIntLE_ne_oor _ _ _) fun _ => ?_
        refine except_bind_ne _ _ _ (readUIntLE_ne_oor _ _ _) fun _ => ?_
        refine except_bind_ne _ _ _ (readUIntLE_ne_oor _ _ _) fun _ => ?_
        refine except_bind_ne _ _ _ (readUIntLE_ne_oor _ _ _) fun _ => ?_
        refine except_bind_ne _ _ _ (readUIntLE_ne_oor _ _ _) fun _ => ?_
        refine except_bind_ne _ _ _ (readUIntLE_ne_oor _ _ _) fun _ => ?_
        simp [pure, Except.pure]

theorem footer_fromBuffer_ne_oor (buf : List Nat) :
    MrrFooter.fromBuffer buf ≠ .error .offsetOutOfRange := by
  rw [MrrFooter.fromBuffer]
  split
  · simp
  · split
    · simp
    · refine except_bind_ne _ _ _ (readUIntLE_ne_oor _ _ _) fun _ => ?_
      refine except_bind_ne _ _ _ (readUIntLE_ne_oor _ _ _) fun _ => ?_
      refine except_bind_ne _ _ _ (readUIntLE_ne_oor _ _ _) fun _ => ?_
      refine except_bind_ne _ _ _ (readUIntLE_ne_oor _ _ _) fun _ => ?_
      simp [pure, Except.pure]

/-- C2 (amended): the load operation performs no bounds check on the
header-declared capabilities or initial-state offset+length pairs, and
possesses no offset-out-of-range failure: whenever the JSON parser it is
given never reports such an error, neither does load; and when both
header and footer parse and the JSON parser accepts the two slices that
`subarray` produced by clamping to the buffer bounds, load succeeds even
though the declared capabilities slice extends past the end of the
buffer. -/
theorem load_no_offset_check {J : Type} (parse : List Nat → Except MrrError J)
    (buf : List Nat)
    (hp : ∀ b, parse b ≠ .error .offsetOutOfRange) :
    (MrrReader.load parse buf ≠ .error .offsetOutOfRange) ∧
    (∀ (hdr : MrrHeader) (ftr : MrrFooter) (caps ist : J),
       MrrHeader.fromBuffer buf = .ok hdr →
       MrrFooter.fromBuffer (subarray buf (buf.length - FOOTER_SIZE) buf.length) = .ok ftr →
       buf.length < hdr.capabilitiesOffset + hdr.capabilitiesLen →
       parse (subarray buf hdr.capabilitiesOffset
               (hdr.capabilitiesOffset + hdr.capabilitiesLen)) = .ok caps →
       parse (subarray buf hdr.initialStateOffset
               (hdr.initialStateOffset + hdr.initialStateLen)) = .ok ist →
       MrrReader.load parse buf =
         .ok { buffer := buf, header := hdr, footer := ftr,
               capabilities := caps, initialState := ist,
               currentOffset := hdr.framesOffset, currentFrame := 0 }) := by
  constructor
  · rw [MrrReader.load]
    refine except_bind_ne _ _ _ (header_fromBuffer_ne_oor _) fun hdr => ?_
    refine except_bind_ne _ _ _ (footer_fromBuffer_ne_oor _) fun ftr => ?_
    refine except_bind_ne _ _ _ (hp _) fun caps => ?_
    refine except_bind_ne _ _ _ (hp _) fun ist => ?_
    simp [pure, Except.pure]
  · intro hdr ftr caps ist hH hF hb hc hi
    simp only [MrrReader.load, hH, hF, hc, hi, ebind_ok]
    rfl

/-- Model of the host JSON parse (utf-8 decode then JSON.parse) restricted
to the byte strings arising in this development: the two bytes of the
text \x7b\x7d (an empty JSON object) parse successfully, anything else is
rejected with a parse error, exactly as JSON.parse accepts the former and
rejects every other byte string used below. -/
def parseEmptyObj : List Nat → Except MrrError Unit :=
  fun b => if b = [123, 125] then .ok () else .error .jsonParseError

/-- Container buffer of 288 bytes: a valid 256-byte header declaring a
capabilities (and initial-state) window at offset 286 with length 100 —
extending 98 bytes past the end of the buffer — followed by a valid
32-byte footer whose final two pad bytes are the text \x7b\x7d. -/
def cbufC2 : List Nat :=
  [77, 82, 82, 49, 1, 0] ++ List.replicate 26 0
  ++ [30, 1, 0, 0, 0, 0, 0, 0] ++ [100, 0, 0, 0]
  ++ [30, 1, 0, 0, 0, 0, 0, 0] ++ [100, 0, 0, 0]
  ++ [0, 1, 0, 0, 0, 0, 0, 0]
  ++ List.replicate 192 0
  ++ [77, 82, 82, 70] ++ List.replicate 26 0 ++ [123, 125]

def hdrC2 : MrrHeader :=
  { version := 1, flags := 0, radarBrand := 0, spokesPerRev := 0,
    maxSpokeLen := 0, pixelValues := 0, startTimeMs := 0,
    capabilitiesOffset := 286, capabilitiesLen := 100,
    initialStateOffset := 286, initialStateLen := 100,
    framesOffset := 256 }

def ftrC2 : MrrFooter :=
  { indexOffset := 0, indexCount := 0, frameCount := 0, durationMs := 0 }

/-- Counterexample for C2 as stated: the header of `cbufC2` declares a
capabilities slice whose offset+length (386) exceeds the 288-byte buffer
bounds, yet load does not fail with an offset-out-of-range error — it
clamps the slice to the two final bytes, text-decodes and parses them,
and succeeds. -/
theorem load_oor_counterexample :
    MrrHeader.fromBuffer cbufC2 = .ok hdrC2 ∧
    cbufC2.length = 288 ∧
    cbufC2.length < hdrC2.capabilitiesOffset + hdrC2.capabilitiesLen ∧
    MrrReader.load parseEmptyObj cbufC2 =
      .ok { buffer := cbufC2, header := hdrC2, footer := ftrC2,
            capabilities := (), initialState := (),
            currentOffset := 256, currentFrame := 0 } :=
  ⟨rfl, rfl, by decide, rfl⟩

/-- Witness for the amended C2: the general theorem applied to the
concrete out-of-bounds buffer `cbufC2` and the concrete JSON-parse model,
with every hypothesis discharged by evaluation. -/
theorem load_no_offset_check_witness :
    MrrReader.load parseEmptyObj cbufC2 ≠ .error .offsetOutOfRange ∧
    MrrReader.load parseEmptyObj cbufC2 =
      .ok { buffer := cbufC2, header := hdrC2, footer := ftrC2,
            capabilities := (), initialState := (),
            currentOffset := hdrC2.framesOffset, currentFrame := 0 } :=
  have hp : ∀ b, parseEmptyObj b ≠ .error .offsetOutOfRange := by
    intro b
    unfold parseEmptyObj
    split <;> simp
  ⟨(load_no_offset_check parseEmptyObj cbufC2 hp).1,
   (load_no_offset_check parseEmptyObj cbufC2 hp).2 hdrC2 ftrC2 () ()
     rfl rfl (by decide) rfl rfl⟩

theorem readFrame_ok_none {J : Type} (s : MrrReaderState J)
    (h : MrrReader.readFrame s = .ok none) :
    s.footer.frameCount ≤ s.currentFrame := by
  unfold MrrReader.readFrame at h
  split at h
  · omega
  · cases hfb : MrrFrame.fromBuffer s.buffer s.currentOffset with
    | error e => rw [hfb, ebind_error] at h; cases h
    | ok p =>
        obtain ⟨f, n⟩ := p
        rw [hfb, ebind_ok] at h
        cases h

theorem readFrame_ok_some {J : Type} (s : MrrReaderState J) (f : MrrFrame)
    (s1 : MrrReaderState J)
    (h : MrrReader.readFrame s = .ok (some (f, s1))) :
    s.currentFrame < s.footer.frameCount ∧
    s1.currentFrame = s.currentFrame + 1 ∧ s1.footer = s.footer := by
  unfold MrrReader.readFrame at h
  split at h
  · cases h
  · refine ⟨by omega, ?_⟩
    cases hfb : MrrFrame.fromBuffer s.buffer s.currentOffset with
    | error e => rw [hfb, ebind_error] at h; cases h
    | ok p =>
        obtain ⟨fr, n⟩ := p
        rw [hfb, ebind_ok] at h
        simp only [pure, Except.pure, Except.ok.injEq, Option.some.injEq,
          Prod.mk.injEq] at h
        obtain ⟨hf, hs⟩ := h
        rw [← hs]
        exact ⟨rfl, rfl⟩

theorem framesAux_length {J : Type} (fuel : Nat) :
    ∀ (s : MrrReaderState J) (l : List MrrFrame),
    s.footer.frameCount - s.currentFrame < fuel →
    MrrReader.framesAux fuel s = .ok l →
    l.length = s.footer.frameCount - s.currentFrame := by
  induction fuel with
  | zero => intro s l h; exact absurd h (Nat.not_lt_zero _)
  | succ n ih =>
    intro s l hfuel h
    rw [show MrrReader.framesAux (n + 1) s = (do
          match ← MrrReader.readFrame s with
          | none => pure []
          | some (frame, s1) => do
              let rest ← MrrReader.framesAux n s1
              pure (frame :: rest)) from rfl] at h
    cases hr : MrrReader.readFrame s with
    | error e => rw [hr, ebind_error] at h; cases h
    | ok o =>
      rw [hr, ebind_ok] at h
      cases o with
      | none =>
        have hge := readFrame_ok_none s hr
        have hl : l = [] := by
          have : (pure [] : Except MrrError (List MrrFrame)) = .ok l := h
          injection this with h2
          exact h2.symm
        subst hl
        simp
        omega
      | some p =>
        obtain ⟨f, s1⟩ := p
        obtain ⟨hlt, hcf, hft⟩ := readFrame_ok_some s f s1 hr
        have h5 : (MrrReader.framesAux n s1 >>= fun rest =>
            pure (f :: rest)) = .ok l := h
        cases haux : MrrReader.framesAux n s1 with
        | error e => rw [haux, ebind_error] at h5; cases h5
        | ok rest =>
          rw [haux, ebind_ok] at h5
          have hl : l = f :: rest := by
            have h6 : (pure (f :: rest) : Except MrrError (List MrrFrame)) = .ok l := h5
            injection h6 with h7
            exact h7.symm
          have hrest := ih s1 rest (by rw [hcf, hft]; omega) haux
          subst hl
          rw [hcf, hft] at hrest
          simp [hrest]
          omega

/-- C5: for every loaded reader state, if the sequential decode performed
by the frames() generator (iterate readFrame until it returns null)
succeeds, then the number of frames it produces equals the frameCount
field reported by the metadata, which is the footer frame count. -/
theorem frames_length_eq_frameCount {J : Type} (s : MrrReaderState J)
    (l : List MrrFrame) (h : MrrReader.framesIter s = .ok l) :
    l.length = (MrrReader.getMetadata s).frameCount := by
  have hfuel : (MrrReader.rewind s).footer.frameCount -
      (MrrReader.rewind s).currentFrame < s.footer.frameCount + 1 := by
    simp [MrrReader.rewind]
  have hlen := framesAux_length (s.footer.frameCount + 1)
      (MrrReader.rewind s) l hfuel h
  simpa [MrrReader.rewind, MrrReader.getMetadata] using hlen

def readerC5 : MrrReaderState Unit :=
  { buffer := List.replicate 26 0
    header := { version := 1, flags := 0, radarBrand := 0, spokesPerRev := 0,
                maxSpokeLen := 0, pixelValues := 0, startTimeMs := 0,
                capabilitiesOffset := 0, capabilitiesLen := 0,
                initialStateOffset := 0, initialStateLen := 0,
                framesOffset := 0 }
    footer := { indexOffset := 0, indexCount := 0, frameCount := 2,
                durationMs := 0 }
    capabilities := ()
    initialState := ()
    currentOffset := 0
    currentFrame := 0 }

def zeroFrame : MrrFrame :=
  { timestampMs := 0, flags := 0, data := [], stateDelta := none }

/-- Witness for C5: a concrete well-formed reader whose buffer holds two
13-byte frames; sequential decode produces exactly the two frames the
metadata reports. -/
theorem frames_length_eq_frameCount_witness :
    ([zeroFrame, zeroFrame] : List MrrFrame).length =
      (MrrReader.getMetadata readerC5).frameCount :=
  frames_length_eq_frameCount readerC5 [zeroFrame, zeroFrame] rfl

/-- C4: while playing, after delivering the frame at the current index,
when a next frame exists the timer is armed with a delay of exactly
max(1, next timestamp minus current timestamp) milliseconds, so the delay
is at least 1 ms even for zero or negative timestamp deltas. -/
theorem schedule_delay_clamped (s : PlayerState) (f g : MrrFrame)
    (hp : s.playing = true)
    (hf : s.frames[s.currentFrame]? = some f)
    (hg : s.frames[s.currentFrame + 1]? = some g) :
    MrrPlayer.scheduleNextFrame s =
      some ({ s with positionMs := f.timestampMs,
                     currentFrame := s.currentFrame + 1,
                     playbackTimer := some
                       ((max 1 ((g.timestampMs : Int) - (f.timestampMs : Int))).toNat,
                        .nextFrame) },
            [.emit f.data]) ∧
    1 ≤ (max 1 ((g.timestampMs : Int) - (f.timestampMs : Int))).toNat ∧
    ((max 1 ((g.timestampMs : Int) - (f.timestampMs : Int))).toNat : Int) =
      max 1 ((g.timestampMs : Int) - (f.timestampMs : Int)) := by
  have hlt : s.currentFrame < s.frames.length := by
    by_contra hge
    push_neg at hge
    rw [List.getElem?_eq_none hge] at hf
    cases hf
  have hnge : ¬ s.currentFrame ≥ s.frames.length := by omega
  refine ⟨?_, ?_, ?_⟩
  · rw [MrrPlayer.scheduleNextFrame]
    rw [show (2 : Nat) = 1 + 1 from rfl]
    rw [MrrPlayer.scheduleNextFrameAux]
    simp only [hp, Bool.not_true, Bool.false_eq_true, if_false, hnge, hf, hg]
  · have hmax : (1 : Int) ≤ max 1 ((g.timestampMs : Int) - (f.timestampMs : Int)) :=
      le_max_left _ _
    omega
  · have hmax : (1 : Int) ≤ max 1 ((g.timestampMs : Int) - (f.timestampMs : Int)) :=
      le_max_left _ _
    omega

def frameA : MrrFrame := { timestampMs := 50, flags := 0, data := [1], stateDelta := none }

def frameB : MrrFrame := { timestampMs := 50, flags := 0, data := [2], stateDelta := none }

def playerC4 : PlayerState :=
  { MrrPlayer.initState "rec.mrr" with playing := true, frames := [frameA, frameB] }

/-- Witness for C4: two frames with identical timestamps; the armed delay
is the clamped minimum of 1 ms. -/
theorem schedule_delay_clamped_witness :
    MrrPlayer.scheduleNextFrame playerC4 =
      some ({ playerC4 with positionMs := frameA.timestampMs,
                            currentFrame := playerC4.currentFrame + 1,
                            playbackTimer := some
                              ((max 1 ((frameB.timestampMs : Int) - (frameA.timestampMs : Int))).toNat,
                               .nextFrame) },
            [.emit frameA.data]) ∧
    1 ≤ (max 1 ((frameB.timestampMs : Int) - (frameA.timestampMs : Int))).toNat ∧
    (((max 1 ((frameB.timestampMs : Int) - (frameA.timestampMs : Int))).toNat : Nat) : Int) =
      max 1 ((frameB.timestampMs : Int) - (frameA.timestampMs : Int)) :=
  schedule_delay_clamped playerC4 frameA frameB rfl rfl rfl

/-- C6 (amended): when the last frame is delivered while playing with
looping disabled, the scheduler clears the playing flag, retains the
position at the end of the sequence (frame index equal to the sequence
length, position at the last timestamp) and emits a finished
plugin-status effect; but the state reported to the consumer by getStatus
for that final state is the string "paused" — getStatus has no distinct
finished value. -/
theorem end_of_sequence_reports_paused (s : PlayerState) (f : MrrFrame)
    (hp : s.playing = true) (hl : s.loop = false)
    (hf : s.frames[s.currentFrame]? = some f)
    (hlast : s.currentFrame + 1 = s.frames.length) :
    MrrPlayer.scheduleNextFrame s =
      some ({ s with positionMs := f.timestampMs,
                     currentFrame := s.currentFrame + 1,
                     playing := false },
            [.emit f.data, .finishedStatus]) ∧
    ({ s with positionMs := f.timestampMs,
              currentFrame := s.currentFrame + 1,
              playing := false } : PlayerState).currentFrame = s.frames.length ∧
    (MrrPlayer.getStatus { s with positionMs := f.timestampMs,
                                  currentFrame := s.currentFrame + 1,
                                  playing := false }).state = "paused" := by
  have hlt : s.currentFrame < s.frames.length := by omega
  have hnge : ¬ s.currentFrame ≥ s.frames.length := by omega
  have hnone : s.frames[s.currentFrame + 1]? = none :=
    List.getElem?_eq_none (by omega)
  refine ⟨?_, hlast, ?_⟩
  · rw [MrrPlayer.scheduleNextFrame]
    rw [show (2 : Nat) = 1 + 1 from rfl]
    rw [MrrPlayer.scheduleNextFrameAux]
    simp only [hp, Bool.not_true, Bool.false_eq_true, if_false, hnge, hf,
      hnone, hl]
  · simp [MrrPlayer.getStatus]

def playerC6 : PlayerState :=
  { MrrPlayer.initState "rec.mrr" with
      playing := true
      loop := false
      frames := [zeroFrame] }

/-- Counterexample for C6 as stated: after non-looping playback exhausts
a one-frame sequence, the consumer-reported status string is "paused",
not a distinct finished value (getStatus can only report "playing",
"paused" or "loaded"). -/
theorem end_of_sequence_counterexample :
    MrrPlayer.scheduleNextFrame playerC6 =
      some ({ playerC6 with positionMs := 0, currentFrame := 1,
                            playing := false },
            [.emit [], .finishedStatus]) ∧
    (MrrPlayer.getStatus { playerC6 with positionMs := 0, currentFrame := 1,
                                         playing := false }).state = "paused" ∧
    (MrrPlayer.getStatus { playerC6 with positionMs := 0, currentFrame := 1,
                                         playing := false }).state ≠ "finished" :=
  ⟨rfl, rfl, by decide⟩

/-- Witness for the amended C6: the theorem applied to the concrete
one-frame player. -/
theorem end_of_sequence_reports_paused_witness :
    MrrPlayer.scheduleNextFrame playerC6 =
      some ({ playerC6 with positionMs := zeroFrame.timestampMs,
                            currentFrame := playerC6.currentFrame + 1,
                            playing := false },
            [.emit zeroFrame.data, .finishedStatus]) ∧
    ({ playerC6 with positionMs := zeroFrame.timestampMs,
                     currentFrame := playerC6.currentFrame + 1,
                     playing := false } : PlayerState).currentFrame =
      playerC6.frames.length ∧
    (MrrPlayer.getStatus { playerC6 with positionMs := zeroFrame.timestampMs,
                                         currentFrame := playerC6.currentFrame + 1,
                                         playing := false }).state = "paused" :=
  end_of_sequence_reports_paused playerC6 zeroFrame rfl rfl rfl rfl

/-- C7: for every prior player state, stop cancels any pending scheduled
delivery (the timer slot is empty afterwards), clears the playing flag,
produces no delivery effect, and the reported position is frame index 0
at 0 ms. -/
theorem stop_cancels_and_resets (s : PlayerState) :
    (MrrPlayer.stop s).1.playbackTimer = none ∧
    (MrrPlayer.stop s).1.playing = false ∧
    (MrrPlayer.getStatus (MrrPlayer.stop s).1).frame = 0 ∧
    (MrrPlayer.getStatus (MrrPlayer.stop s).1).positionMs = 0 ∧
    (MrrPlayer.stop s).2 = [] :=
  ⟨rfl, rfl, rfl, rfl, rfl⟩

theorem quiescent_pstep (s : PlayerState) (e : PEvent)
    (s2 : PlayerState) (effs : List Eff)
    (hpl : s.playing = false) (htm : s.playbackTimer = none)
    (he : e ≠ PEvent.evPlay)
    (h : MrrPlayer.pstep s e = some (s2, effs)) :
    s2.playing = false ∧ s2.playbackTimer = none ∧ effs = [] := by
  cases e with
  | evPlay => exact absurd rfl he
  | evPause =>
      simp only [MrrPlayer.pstep, MrrPlayer.pause, Option.some.injEq,
        Prod.mk.injEq] at h
      obtain ⟨hs, hf⟩ := h
      rw [← hs, ← hf]
      exact ⟨rfl, rfl, rfl⟩
  | evStop =>
      simp only [MrrPlayer.pstep, MrrPlayer.stop, MrrPlayer.pause,
        Option.some.injEq, Prod.mk.injEq] at h
      obtain ⟨hs, hf⟩ := h
      rw [← hs, ← hf]
      exact ⟨rfl, rfl, rfl⟩
  | evSetLooping b =>
      simp only [MrrPlayer.pstep, Option.some.injEq, Prod.mk.injEq] at h
      obtain ⟨hs, hf⟩ := h
      rw [← hs, ← hf]
      exact ⟨hpl, htm, rfl⟩
  | timerFire =>
      have h2 : (some (s, ([] : List Eff)) : Option (PlayerState × List Eff))
          = some (s2, effs) := by
        rw [← h]
        simp [MrrPlayer.pstep, htm]
      simp only [Option.some.injEq, Prod.mk.injEq] at h2
      obtain ⟨hs, hf⟩ := h2
      rw [← hs, ← hf]
      exact ⟨hpl, htm, rfl⟩

theorem quiescent_runEvents (evs : List PEvent) :
    ∀ (s s2 : PlayerState) (effs : List Eff),
    s.playing = false → s.playbackTimer = none →
    PEvent.evPlay ∉ evs →
    MrrPlayer.runEvents s evs = some (s2, effs) →
    s2.playing = false ∧ s2.playbackTimer = none ∧ effs = [] := by
  induction evs with
  | nil =>
      intro s s2 effs hpl htm hm h
      simp only [MrrPlayer.runEvents, Option.some.injEq, Prod.mk.injEq] at h
      obtain ⟨hs, hf⟩ := h
      rw [← hs, ← hf]
      exact ⟨hpl, htm, rfl⟩
  | cons e rest ih =>
      intro s s2 effs hpl htm hm h
      have hne : e ≠ PEvent.evPlay := by
        intro hh
        exact hm (hh ▸ List.mem_cons_self e rest)
      have hmr : PEvent.evPlay ∉ rest := by
        intro hh
        exact hm (List.mem_cons_of_mem e hh)
      rw [show MrrPlayer.runEvents s (e :: rest) =
            (MrrPlayer.pstep s e).bind (fun p =>
              (MrrPlayer.runEvents p.1 rest).map fun q =>
                (q.1, p.2 ++ q.2)) from rfl] at h
      cases hstep : MrrPlayer.pstep s e with
      | none => rw [hstep, Option.none_bind] at h; cases h
      | some p =>
          obtain ⟨s1, effs1⟩ := p
          rw [hstep, Option.some_bind] at h
          obtain ⟨h1, h2, h3⟩ := quiescent_pstep s e s1 effs1 hpl htm hne hstep
          cases hrun : MrrPlayer.runEvents s1 rest with
          | none => rw [hrun, Option.map_none'] at h; cases h
          | some q =>
              obtain ⟨s3, effs2⟩ := q
              rw [hrun, Option.map_some'] at h
              simp only [Option.some.injEq, Prod.mk.injEq] at h
              obtain ⟨hs, hf⟩ := h
              obtain ⟨h4, h5, h6⟩ := ih s1 s3 effs2 h1 h2 hmr hrun
              rw [← hs, ← hf]
              refine ⟨h4, h5, ?_⟩
              rw [h3, h6]
              rfl

/-- C8: pause empties the single timer slot (synchronously cancelling the
one outstanding scheduled callback) and produces no effect; from the
paused state, any sequence of further events that does not include play
(timer firings are no-ops because a cancelled callback never fires, and
stop, pause and setLooping keep the player quiescent) produces no frame
delivery at all and leaves the player not playing with no timer armed. -/
theorem pause_prevents_delivery (s : PlayerState) (evs : List PEvent)
    (s2 : PlayerState) (effs : List Eff)
    (hm : PEvent.evPlay ∉ evs)
    (h : MrrPlayer.runEvents (MrrPlayer.pause s).1 evs = some (s2, effs)) :
    (MrrPlayer.pause s).1.playbackTimer = none ∧
    (MrrPlayer.pause s).2 = [] ∧
    effs = [] ∧
    (∀ d : List Nat, Eff.emit d ∉ effs) ∧
    s2.playing = false ∧ s2.playbackTimer = none := by
  obtain ⟨h1, h2, h3⟩ := quiescent_runEvents evs (MrrPlayer.pause s).1 s2 effs
    rfl rfl hm h
  subst h3
  exact ⟨rfl, rfl, rfl, fun d => List.not_mem_nil _, h1, h2⟩

def playerC8 : PlayerState :=
  { MrrPlayer.initState "rec.mrr" with
      playing := true
      frames := [frameA, frameB]
      currentFrame := 1
      playbackTimer := some (1, TimerAction.nextFrame) }

/-- Witness for C8: pausing a playing player with an armed timer, then
firing a stale timer event, stopping, toggling looping and firing again
delivers nothing. -/
theorem pause_prevents_delivery_witness :
    (MrrPlayer.pause playerC8).1.playbackTimer = none ∧
    (MrrPlayer.pause playerC8).2 = [] ∧
    ([] : List Eff) = [] ∧
    (∀ d : List Nat, Eff.emit d ∉ ([] : List Eff)) ∧
    (MrrPlayer.stop (MrrPlayer.pause playerC8).1).1.playing = false ∧
    (MrrPlayer.stop (MrrPlayer.pause playerC8).1).1.playbackTimer = none :=
  pause_prevents_delivery playerC8
    [PEvent.timerFire, PEvent.evStop, PEvent.evSetLooping true, PEvent.timerFire]
    (MrrPlayer.stop (MrrPlayer.pause playerC8).1).1 []
    (by decide) (by decide)

/-- C10: the player constructor initialises the looping flag to true; a
load leaves it untouched, so immediately after a successful load (before
any settings call) getStatus reports looping as true; the no-recording
status response also carries a true looping flag; and at end-of-sequence
a playing player with the default looping flag wraps around, delivering
the first frame again with the playing flag still set. -/
theorem looping_default_true {J : Type} (filename radarId : String)
    (m : MrrMetadata J) (rg : Option Nat) (fr : List MrrFrame)
    (s : PlayerState) (f0 : MrrFrame) :
    (MrrPlayer.initState filename).loop = true ∧
    (MrrPlayer.applyLoad (MrrPlayer.initState filename) m rg fr radarId).loop = true ∧
    (MrrPlayer.getStatus
      (MrrPlayer.applyLoad (MrrPlayer.initState filename) m rg fr radarId)).loopPlayback
      = true ∧
    idleStatusResponse.2 = true ∧
    (s.playing = true → s.loop = true → s.frames.length ≤ s.currentFrame →
     s.frames[0]? = some f0 →
     ∃ (s2 : PlayerState) (effs : List Eff),
       MrrPlayer.scheduleNextFrame s = some (s2, effs) ∧
       Eff.emit f0.data ∈ effs ∧ s2.currentFrame = 1 ∧ s2.playing = true) := by
  refine ⟨rfl, rfl, rfl, rfl, ?_⟩
  intro hp hl hge hf0
  have hpos : 0 < s.frames.length := by
    by_contra hz
    push_neg at hz
    rw [List.getElem?_eq_none (by omega)] at hf0
    cases hf0
  have hge2 : s.currentFrame ≥ s.frames.length := hge
  rw [MrrPlayer.scheduleNextFrame]
  rw [show (2 : Nat) = 1 + 1 from rfl]
  rw [MrrPlayer.scheduleNextFrameAux]
  simp only [hp, Bool.not_true, Bool.false_eq_true, if_false, hge2, if_true,
    ge_iff_le, hl, ite_true]
  have hnge : ¬ (0 ≥ s.frames.length) := by omega
  rw [MrrPlayer.scheduleNextFrameAux]
  simp only [hp, Bool.not_true, Bool.false_eq_true, if_false, hnge, hf0,
    ge_iff_le, ite_false]
  cases hg : s.frames[1]? with
  | some g =>
      simp only [hg]
      exact ⟨_, _, rfl, List.mem_singleton.mpr rfl, rfl, rfl⟩
  | none =>
      simp only [hg, hl, if_true]
      exact ⟨_, _, rfl, List.mem_singleton.mpr rfl, rfl, rfl⟩

def metaC10 : MrrMetadata Unit :=
  { version := 1, radarBrand := 0, spokesPerRev := 2048, maxSpokeLen := 512,
    pixelValues := 64, startTimeMs := 0, frameCount := 1, durationMs := 0,
    capabilities := (), initialState := () }

def playerC10 : PlayerState :=
  { MrrPlayer.initState "rec.mrr" with
      playing := true
      frames := [zeroFrame]
      currentFrame := 1 }

/-- Witness for C10: the freshly constructed and freshly loaded player
report looping true, and the concrete exhausted player with looping
enabled wraps around to frame 0. -/
theorem looping_default_true_witness :
    (MrrPlayer.initState "rec.mrr").loop = true ∧
    (MrrPlayer.applyLoad (MrrPlayer.initState "rec.mrr") metaC10 (some 1852)
      [zeroFrame] "playback-rec").loop = true ∧
    (MrrPlayer.getStatus (MrrPlayer.applyLoad (MrrPlayer.initState "rec.mrr")
      metaC10 (some 1852) [zeroFrame] "playback-rec")).loopPlayback = true ∧
    idleStatusResponse.2 = true ∧
    (∃ (s2 : PlayerState) (effs : List Eff),
       MrrPlayer.scheduleNextFrame playerC10 = some (s2, effs) ∧
       Eff.emit zeroFrame.data ∈ effs ∧ s2.currentFrame = 1 ∧ s2.playing = true) :=
  have h := looping_default_true "rec.mrr" "playback-rec" metaC10 (some 1852)
    [zeroFrame] playerC10 zeroFrame
  ⟨h.1, h.2.1, h.2.2.1, h.2.2.2.1,
   h.2.2.2.2 (by decide) (by decide) (by decide) (by decide)⟩
